import Mathlib

/-!
Verification of the CompanyHub aggregation and delivery engine against its
natural-language specification.  The definitions below are shallow embeddings
of the repository's source: the frontend TypeScript utilities (NIP
normalization and validation, provider status handling, REGON entity-type
labels), the declared API response types, the PostgreSQL schema (cache
tables with their TTL defaults, the callback queue and delivery history),
and the configured cache TTL constants.  Components whose backend
implementation is not part of the repository snapshot (the webhook worker
loop, the change detector and the aggregator's composition step) are
modelled from the specification, using the vocabulary recorded in the
schema.
-/

namespace CompanyHub

/-! ### Provider status vocabulary (frontend types, `ProviderStatus` union) -/

/-- The `ProviderStatus` union type of the frontend API types:
`'fresh' | 'cached' | 'rate_limited' | 'error' | 'unknown'`. -/
inductive ProviderStatus where
  | fresh
  | cached
  | rate_limited
  | error
  | unknown
deriving DecidableEq

/-- The literal string carried by each `ProviderStatus` member. -/
def statusTag : ProviderStatus → String
  | .fresh => "fresh"
  | .cached => "cached"
  | .rate_limited => "rate_limited"
  | .error => "error"
  | .unknown => "unknown"

/-- All members of the `ProviderStatus` union, in source order. -/
def allProviderStatuses : List ProviderStatus :=
  [.fresh, .cached, .rate_limited, .error, .unknown]

/-- The string values of the `ProviderStatus` union. -/
def providerStatusTags : List String := allProviderStatuses.map statusTag

/-- The five status values named by the specification's outbound-result
sentence (`status ∈ fresh|cached|rate_limited|error|not_found`). -/
def claimedProviderStatusTags : List String :=
  ["fresh", "cached", "rate_limited", "error", "not_found"]

/-- The `ProviderMetadata` interface: a status tag plus optional
timestamp/error fields (absent when not applicable). -/
structure ProviderMetadata where
  status : ProviderStatus
  cached_at : Option String
  fetched_at : Option String
  next_available_at : Option String
  error_message : Option String

/-- The status displayed for a possibly-absent metadata entry
(`metadata.regon?.status || 'unknown'` in the status indicators). -/
def displayedStatus : Option ProviderMetadata → ProviderStatus
  | some m => m.status
  | none => .unknown

/-- The field names of the `CompanyMetadata` interface: the aggregate
response declares per-provider status entries exactly for these keys. -/
def companyMetadataFields : List String := ["regon", "mf", "vies"]

/-! ### Aggregator composition (modelled from the spec)

Modelled from the spec: the backend orchestrator is not part of the
repository snapshot; `resolve` below follows §4.4 of the specification
over the three providers that the declared `CompanyMetadata` response
type carries (`regon`, `mf`, `vies`). -/

/-- The three providers with a metadata slot in the aggregate response. -/
inductive AggProvider where
  | regon
  | mf
  | vies
deriving DecidableEq

/-- Per-provider outcome of one resolve pass (spec §4.4): fresh fetch,
fresh cache hit, rate-limit denial or upstream error, the latter two
carrying a stale cached payload when one exists. -/
inductive Outcome (α : Type) where
  | fresh (payload : α)
  | cached (payload : α)
  | rateLimited (nextAvailableAt : Nat) (stale : Option α)
  | error (message : String) (stale : Option α)

/-- Status tag of an outcome. -/
def statusOf {α : Type} : Outcome α → ProviderStatus
  | .fresh _ => .fresh
  | .cached _ => .cached
  | .rateLimited _ _ => .rate_limited
  | .error _ _ => .error

/-- The best available payload for an outcome: fresh, else cached, else
the stale fallback, else absent (spec §4.4 composition). -/
def bestPayload {α : Type} : Outcome α → Option α
  | .fresh p => some p
  | .cached p => some p
  | .rateLimited _ stale => stale
  | .error _ stale => stale

/-- Whether an outcome counts as non-degraded for the disposition. -/
def outcomeOk {α : Type} : Outcome α → Bool
  | .fresh _ => true
  | .cached _ => true
  | .rateLimited _ _ => false
  | .error _ _ => false

/-- One per-provider entry of the aggregate result: status tag, best
available payload (none when absent) and the rate-limit reset time. -/
structure ProviderEntry (α : Type) where
  status : ProviderStatus
  payload : Option α
  nextAvailableAt : Option Nat

/-- Build the per-provider entry from that provider's own outcome. -/
def composeOutcome {α : Type} : Outcome α → ProviderEntry α
  | .fresh p => ⟨.fresh, some p, none⟩
  | .cached p => ⟨.cached, some p, none⟩
  | .rateLimited t stale => ⟨.rate_limited, stale, some t⟩
  | .error _ stale => ⟨.error, stale, none⟩

/-- Overall disposition of the aggregate response. -/
inductive Disposition where
  | success
  | partialFailure
deriving DecidableEq

/-- Whether every provider outcome is fresh or cached. -/
def allOk {α : Type} (outcomes : AggProvider → Outcome α) : Bool :=
  outcomeOk (outcomes .regon) && outcomeOk (outcomes .mf) && outcomeOk (outcomes .vies)

/-- The aggregate result: one entry per declared provider plus the
overall disposition. -/
structure AggregateResult (α : Type) where
  regon : ProviderEntry α
  mf : ProviderEntry α
  vies : ProviderEntry α
  disposition : Disposition

/-- Modelled from the spec: the aggregator's composition step.  Every
provider contributes its entry regardless of outcome; the disposition is
`success` when all outcomes are fresh or cached, and otherwise depends
only on the caller's partial-response opt-in flag. -/
def resolve {α : Type} (outcomes : AggProvider → Outcome α) (partialOptIn : Bool) :
    AggregateResult α :=
  { regon := composeOutcome (outcomes .regon)
    mf := composeOutcome (outcomes .mf)
    vies := composeOutcome (outcomes .vies)
    disposition :=
      if allOk outcomes then .success
      else if partialOptIn then .success
      else .partialFailure }

/-! ### NIP utilities (frontend `lib/utils/nip.ts`) -/

/-- The characters matched by the JavaScript regex class `\s`. -/
def isJsWhitespace (c : Char) : Bool :=
  let n := c.toNat
  n == 0x9 || n == 0xA || n == 0xB || n == 0xC || n == 0xD ||
  n == 0x20 || n == 0xA0 || n == 0x1680 ||
  (decide (0x2000 ≤ n) && decide (n ≤ 0x200A)) ||
  n == 0x2028 || n == 0x2029 || n == 0x202F || n == 0x205F ||
  n == 0x3000 || n == 0xFEFF

/-- `normalizeNip`: remove spaces and dashes (`nip.replace(/[\s-]/g, '')`). -/
def normalizeNip (s : String) : String :=
  ⟨s.data.filter (fun c => !(isJsWhitespace c || c == '-'))⟩

/-- JavaScript `String.prototype.trim`: strip whitespace from both ends. -/
def jsTrim (s : String) : String :=
  ⟨((s.data.dropWhile isJsWhitespace).reverse.dropWhile isJsWhitespace).reverse⟩

/-- The characters matched by the JavaScript regex class `\d`. -/
def isDigitChar (c : Char) : Bool :=
  decide (48 ≤ c.toNat) && decide (c.toNat ≤ 57)

/-- `isValidNipFormat`: the normalized string matches `/^\d{10}$/`. -/
def isValidNipFormat (s : String) : Bool :=
  let n := (normalizeNip s).data
  (n.length == 10) && n.all isDigitChar

/-- `normalized.split('').map(Number)`: the digit values of a string. -/
def nipDigits (t : String) : List Nat :=
  t.data.map (fun c => c.toNat - '0'.toNat)

/-- The NIP checksum weights. -/
def nipWeights : List Nat := [6, 5, 7, 2, 3, 4, 5, 6, 7]

/-- Total list indexing with default 0 (JavaScript `digits[i]`). -/
def digitAt : List Nat → Nat → Nat
  | [], _ => 0
  | d :: _, 0 => d
  | _ :: t, i + 1 => digitAt t i

/-- The i-th digit of the normalized form of `s` (0 when out of range). -/
def nipDigitOf (s : String) (i : Nat) : Nat :=
  digitAt (nipDigits (normalizeNip s)) i

/-- The weighted digit sum named by the claim:
`6·d0 + 5·d1 + 7·d2 + 2·d3 + 3·d4 + 4·d5 + 5·d6 + 6·d7 + 7·d8`. -/
def nipWeightedSum (s : String) : Nat :=
  6 * nipDigitOf s 0 + 5 * nipDigitOf s 1 + 7 * nipDigitOf s 2 + 2 * nipDigitOf s 3 +
  3 * nipDigitOf s 4 + 4 * nipDigitOf s 5 + 5 * nipDigitOf s 6 + 6 * nipDigitOf s 7 +
  7 * nipDigitOf s 8

/-- `isValidNip`: format check, then weighted checksum mod 11 against the
last digit. -/
def isValidNip (s : String) : Bool :=
  let normalized := normalizeNip s
  if !(isValidNipFormat normalized) then false
  else
    let digits := nipDigits normalized
    let sum := (List.zipWith (fun d w => d * w) digits nipWeights).sum
    sum % 11 == digitAt digits 9

/-- `handleSearch` of `CompanySearchForm`: bail out on a blank input, bail
out when the normalized input is not a 10-digit string, otherwise issue
the lookup with the normalized id. -/
def handleSearch (searchNip : String) : Option String :=
  if jsTrim searchNip = "" then none
  else
    let normalized := normalizeNip searchNip
    if isValidNipFormat normalized then some normalized else none

/-! ### REGON entity types (frontend `regon.ts`) -/

/-- `getEntityTypeLabel`: the four recognized REGON entity-type codes map
to their labels; any other string falls through unchanged. -/
def getEntityTypeLabel (entityType : String) : String :=
  if entityType = "P" then "Osoba prawna"
  else if entityType = "F" then "Osoba fizyczna"
  else if entityType = "LP" then "Jednostka lokalna osoby prawnej"
  else if entityType = "LF" then "Jednostka lokalna osoby fizycznej"
  else entityType

/-- The recognized entity-type codes (`regon_data.entity_type` comment). -/
def regonEntityTypes : List String := ["P", "F", "LP", "LF"]

/-! ### Cache store and TTLs (schema tables and environment constants) -/

/-- `CACHE_TTL_DEFAULT=86400` (one day, in seconds). -/
def CACHE_TTL_DEFAULT : Nat := 86400

/-- `CACHE_TTL_BANK_ACCOUNTS=604800` (seven days, in seconds). -/
def CACHE_TTL_BANK_ACCOUNTS : Nat := 604800

/-- The providers with a snapshot table in the schema. -/
inductive CacheProvider where
  | regon
  | mf
  | vies
  | iban
deriving DecidableEq

/-- Per-provider TTL: the schema gives `regon_data`, `mf_data` and
`vies_data` an `expires_at` default of one day and `iban_enrichment`
seven days, matching the two configured constants. -/
def providerTtl : CacheProvider → Nat
  | .iban => CACHE_TTL_BANK_ACCOUNTS
  | _ => CACHE_TTL_DEFAULT

/-- A provider snapshot row: payload, fetch time and expiry time. -/
structure Snapshot (α : Type) where
  payload : α
  fetchedAt : Nat
  expiresAt : Nat

/-- The cache store keyed by (entityId, provider). -/
def CacheStore (α : Type) := String × CacheProvider → Option (Snapshot α)

/-- The empty cache store. -/
def emptyCache {α : Type} : CacheStore α := fun _ => none

/-- Modelled from the spec: the cache write path is not part of the
repository snapshot; a successful fetch overwrites the row for its key
with `fetched_at = now` and `expires_at = now + ttl(provider)`, the
schema's column defaults. -/
def cachePut {α : Type} (st : CacheStore α) (entityId : String) (p : CacheProvider)
    (payload : α) (now : Nat) : CacheStore α :=
  fun k =>
    if k = (entityId, p) then some ⟨payload, now, now + providerTtl p⟩ else st k

/-- The snapshot freshness invariant of the data model. -/
def StoreWf {α : Type} (st : CacheStore α) : Prop :=
  ∀ k s, st k = some s → s.fetchedAt < s.expiresAt

/-! ### Webhook dispatcher (schema `callback_queue` / `webhook_deliveries`;
worker loop modelled from the spec) -/

/-- The delivery-task statuses recorded in the schema
(`status VARCHAR(20) DEFAULT 'pending' -- pending, processing, completed,
failed`). -/
inductive TaskStatus where
  | pending
  | processing
  | completed
  | failed
deriving DecidableEq

/-- The stored string of each task status. -/
def statusName : TaskStatus → String
  | .pending => "pending"
  | .processing => "processing"
  | .completed => "completed"
  | .failed => "failed"

/-- The status values named by the specification's state machine. -/
def claimedDeliveryStatuses : List String :=
  ["pending", "in_flight", "delivered", "failed"]

/-- The status values recorded in the `callback_queue` schema. -/
def callbackQueueStatuses : List String :=
  ["pending", "processing", "completed", "failed"]

/-- One `webhook_deliveries` row: attempt number, HTTP status, timestamp
and success flag. -/
structure DeliveryAttempt where
  attempt_number : Nat
  http_status : Nat
  delivered_at : Nat
  success : Bool
deriving DecidableEq

/-- One `callback_queue` row together with its recorded delivery history. -/
structure DeliveryTask where
  status : TaskStatus
  retry_count : Nat
  max_retries : Nat
  next_retry_at : Option Nat
  attempts : List DeliveryAttempt
deriving DecidableEq

/-- Whether an HTTP status code is a 2xx success. -/
def is2xx (code : Nat) : Bool :=
  decide (200 ≤ code) && decide (code < 300)

/-- Record one delivery attempt in the task's history. -/
def recordAttempt (t : DeliveryTask) (code : Nat) (now : Nat) : List DeliveryAttempt :=
  t.attempts ++ [⟨t.attempts.length + 1, code, now, is2xx code⟩]

/-- Modelled from the spec: the worker marks a pulled task as being
processed. -/
def beginAttempt (t : DeliveryTask) : DeliveryTask :=
  { t with status := .processing }

/-- Modelled from the spec: finish one delivery attempt.  A 2xx response
completes the task; otherwise the retry count grows, and the task either
fails terminally at the configured maximum or is re-queued with a delay.
The attempt is recorded in the history either way. -/
def finishAttempt (t : DeliveryTask) (code now backoff : Nat) : DeliveryTask :=
  let attempted := recordAttempt t code now
  if is2xx code then
    { t with status := .completed, attempts := attempted }
  else
    let rc := t.retry_count + 1
    if t.max_retries ≤ rc then
      { t with status := .failed, retry_count := rc, attempts := attempted }
    else
      { t with status := .pending, retry_count := rc,
               next_retry_at := some (now + backoff), attempts := attempted }

/-- Modelled from the spec: one worker pass over a task.  Only a due
pending task is processed; any other task is left untouched. -/
def workerStep (t : DeliveryTask) (code now backoff : Nat) : DeliveryTask :=
  match t.status with
  | .pending => finishAttempt (beginAttempt t) code now backoff
  | _ => t

/-- Run the worker up to `fuel` passes, the i-th attempt of a task seeing
the endpoint answer `codes i`. -/
def runWorker (codes : Nat → Nat) (now backoff : Nat) : Nat → DeliveryTask → DeliveryTask
  | 0, t => t
  | fuel + 1, t =>
    if t.status = .pending then
      runWorker codes now backoff fuel (workerStep t (codes t.attempts.length) now backoff)
    else t

/-- The delivery-task transition relation: the worker picks up a pending
task, and finishing an attempt moves a processed task onward. -/
inductive Step : DeliveryTask → DeliveryTask → Prop where
  | pick (t : DeliveryTask) (h : t.status = .pending) : Step t (beginAttempt t)
  | finish (t : DeliveryTask) (code now backoff : Nat) (h : t.status = .processing) :
      Step t (finishAttempt t code now backoff)

/-- A freshly enqueued delivery task with the schema's defaults
(`status 'pending'`, `retry_count 0`, `max_retries 3`). -/
def exTask : DeliveryTask :=
  { status := .pending, retry_count := 0, max_retries := 3,
    next_retry_at := none, attempts := [] }

/-! ### Change detector (modelled from the spec; `data_changes` schema) -/

/-- A provider payload as a finite field assignment (field name to
value), looked up order-independently. -/
abbrev Payload := List (String × String)

/-- The value of one field of a payload. -/
def lookupField (p : Payload) (k : String) : Option String :=
  (p.find? (fun kv => kv.1 == k)).map Prod.snd

/-- All field names appearing in either payload. -/
def fieldKeys (prev next : Payload) : List String :=
  (prev.map Prod.fst ++ next.map Prod.fst).dedup

/-- Modelled from the spec: the structural diff collects every field
whose value differs between the two payloads, with the old and new
values. -/
def fieldChanges (prev next : Payload) :
    List (String × Option String × Option String) :=
  ((fieldKeys prev next).filter (fun k => lookupField prev k != lookupField next k)).map
    (fun k => (k, lookupField prev k, lookupField next k))

/-- Modelled from the spec: `diff(previous, next)` is `none` exactly when
no field changed. -/
def diff (prev next : Payload) :
    Option (List (String × Option String × Option String)) :=
  let cs := fieldChanges prev next
  if cs.isEmpty then none else some cs

/-- One `data_changes` row (`change_type ∈ created, updated, deleted`). -/
structure ChangeRecord where
  provider : String
  change_type : String
  field_changes : Option (List (String × Option String × Option String))
  old_data : Option Payload
  new_data : Payload
deriving DecidableEq

/-- Modelled from the spec: the record created after a successful fetch.
No prior snapshot yields a `created` (initial) record; an unchanged
payload yields no record; a changed payload yields an `updated` record
with the diff. -/
def processFetch (provider : String) (prior : Option Payload) (next : Payload) :
    Option ChangeRecord :=
  match prior with
  | none =>
    some { provider := provider, change_type := "created", field_changes := none,
           old_data := none, new_data := next }
  | some prev =>
    match diff prev next with
    | none => none
    | some cs =>
      some { provider := provider, change_type := "updated", field_changes := some cs,
             old_data := some prev, new_data := next }

/-- Dispatch to subscribers is triggered exactly when a change record was
created. -/
def triggersDispatch (r : Option ChangeRecord) : Bool := r.isSome

/-! ## Theorems -/

/-- C1 counterexample: the status displayed for an absent provider entry
is `unknown`, a legal `ProviderStatus` value that is not among the five
values the claim allows (`fresh`, `cached`, `rate_limited`, `error`,
`not_found`). -/
theorem providerStatus_not_found_refuted :
    statusTag (displayedStatus none) ∉ claimedProviderStatusTags ∧
    statusTag (displayedStatus none) ∈ providerStatusTags := by
  decide

/-- C1 (amended): the status tag of every provider entry is one of
exactly the five values `fresh`, `cached`, `rate_limited`, `error`,
`unknown` — five distinct values, with `not_found` never among them —
and the composed entry carries its payload and `nextAvailableAt` slots
as optional values that are `none` when absent: a fresh outcome has a
payload and no reset time, a rate-limit denial without a stale snapshot
has no payload and carries the reset time. -/
theorem providerStatus_exactly_five {α : Type} (p : α) (t : Nat) (m : String) :
    (∀ s : ProviderStatus, statusTag s ∈ providerStatusTags) ∧
    providerStatusTags = ["fresh", "cached", "rate_limited", "error", "unknown"] ∧
    providerStatusTags.Nodup ∧
    "not_found" ∉ providerStatusTags ∧
    (composeOutcome (Outcome.fresh p)).payload = some p ∧
    (composeOutcome (Outcome.fresh p)).nextAvailableAt = none ∧
    (composeOutcome (Outcome.rateLimited t none : Outcome α)).payload = none ∧
    (composeOutcome (Outcome.rateLimited t none : Outcome α)).nextAvailableAt = some t ∧
    (composeOutcome (Outcome.error m none : Outcome α)).payload = none := by
  refine ⟨fun s => ?_, by decide, by decide, by decide, rfl, rfl, rfl, rfl, rfl⟩
  cases s <;> decide

/-- C2 counterexample: the declared aggregate response type
(`CompanyMetadata`) carries per-provider status entries for exactly three
providers — `regon`, `mf`, `vies` — and has no entry for the
bank-account enrichment provider, so the claimed four per-provider
entries cannot all be present. -/
theorem companyMetadata_three_providers :
    companyMetadataFields.length = 3 ∧
    "iban" ∉ companyMetadataFields ∧
    "bank_accounts" ∉ companyMetadataFields := by
  decide

/-- C2 (amended): every resolve call composes one entry — status tag and
best available payload — for each of the three declared providers,
whatever each provider's outcome; the partial-response flag never
changes the entries, and only decides the disposition when some provider
is degraded: opting out yields a partial failure, opting in a success. -/
theorem resolve_composition {α : Type} (outcomes : AggProvider → Outcome α) (b : Bool) :
    ((resolve outcomes b).regon.status = statusOf (outcomes AggProvider.regon) ∧
     (resolve outcomes b).mf.status = statusOf (outcomes AggProvider.mf) ∧
     (resolve outcomes b).vies.status = statusOf (outcomes AggProvider.vies)) ∧
    ((resolve outcomes b).regon.payload = bestPayload (outcomes AggProvider.regon) ∧
     (resolve outcomes b).mf.payload = bestPayload (outcomes AggProvider.mf) ∧
     (resolve outcomes b).vies.payload = bestPayload (outcomes AggProvider.vies)) ∧
    ((resolve outcomes true).regon = (resolve outcomes false).regon ∧
     (resolve outcomes true).mf = (resolve outcomes false).mf ∧
     (resolve outcomes true).vies = (resolve outcomes false).vies) ∧
    (resolve outcomes true).disposition = Disposition.success ∧
    (resolve outcomes false).disposition =
      (if allOk outcomes then Disposition.success else Disposition.partialFailure) := by
  have hfields : ∀ o : Outcome α,
      (composeOutcome o).status = statusOf o ∧ (composeOutcome o).payload = bestPayload o := by
    intro o
    cases o <;> simp [composeOutcome, statusOf, bestPayload]
  refine ⟨⟨(hfields _).1, (hfields _).1, (hfields _).1⟩,
          ⟨(hfields _).2, (hfields _).2, (hfields _).2⟩,
          ⟨rfl, rfl, rfl⟩, ?_, ?_⟩
  · by_cases h : allOk outcomes <;> simp [resolve, h]
  · by_cases h : allOk outcomes <;> simp [resolve, h]

/-- C6: the freshness window of bank-account-enrichment snapshots
(`CACHE_TTL_BANK_ACCOUNTS`, seven days) is exactly seven times the
window of registry snapshots (`CACHE_TTL_DEFAULT`, one day), and every
snapshot written by the cache carries exactly its provider's TTL. -/
theorem cache_ttl_sevenfold {α : Type} (st : CacheStore α) (e : String)
    (p : CacheProvider) (x : α) (now : Nat) :
    CACHE_TTL_BANK_ACCOUNTS = 7 * CACHE_TTL_DEFAULT ∧
    CACHE_TTL_DEFAULT = 86400 ∧
    CACHE_TTL_BANK_ACCOUNTS = 604800 ∧
    providerTtl CacheProvider.iban = 7 * providerTtl CacheProvider.regon ∧
    providerTtl CacheProvider.iban = 7 * providerTtl CacheProvider.mf ∧
    providerTtl CacheProvider.iban = 7 * providerTtl CacheProvider.vies ∧
    cachePut st e p x now (e, p) = some ⟨x, now, now + providerTtl p⟩ := by
  refine ⟨by decide, by decide, by decide, by decide, by decide, by decide, ?_⟩
  simp [cachePut]

/-- C8: the recognized registry entity types are exactly the four codes
`P`, `F`, `LP`, `LF`, each mapped to a distinct label, and the handling
of every other string is total: it falls through to the input itself and
never fails. -/
theorem entity_type_labels (s : String) (h : s ∉ regonEntityTypes) :
    getEntityTypeLabel s = s ∧
    getEntityTypeLabel "P" = "Osoba prawna" ∧
    getEntityTypeLabel "F" = "Osoba fizyczna" ∧
    getEntityTypeLabel "LP" = "Jednostka lokalna osoby prawnej" ∧
    getEntityTypeLabel "LF" = "Jednostka lokalna osoby fizycznej" ∧
    List.Nodup [getEntityTypeLabel "P", getEntityTypeLabel "F",
                getEntityTypeLabel "LP", getEntityTypeLabel "LF"] := by
  simp only [regonEntityTypes, List.mem_cons, List.not_mem_nil, or_false, not_or] at h
  obtain ⟨h1, h2, h3, h4⟩ := h
  refine ⟨?_, by decide, by decide, by decide, by decide, by decide⟩
  simp [getEntityTypeLabel, h1, h2, h3, h4]

/-- C8 witness: the unrecognized code `"X"` falls through unchanged. -/
theorem entity_type_labels_witness :
    getEntityTypeLabel "X" = "X" ∧
    getEntityTypeLabel "P" = "Osoba prawna" ∧
    getEntityTypeLabel "F" = "Osoba fizyczna" ∧
    getEntityTypeLabel "LP" = "Jednostka lokalna osoby prawnej" ∧
    getEntityTypeLabel "LF" = "Jednostka lokalna osoby fizycznej" ∧
    List.Nodup [getEntityTypeLabel "P", getEntityTypeLabel "F",
                getEntityTypeLabel "LP", getEntityTypeLabel "LF"] :=
  entity_type_labels "X" (by decide)

/-- C9: `diff(X, X)` is `none` for every payload `X` and no change record
is created for an unchanged payload; with no prior snapshot the result is
a `created` (initial) record — never `none` — and it always triggers
dispatch. -/
theorem diff_idempotent_and_initial (X : Payload) (provider : String) :
    diff X X = none ∧
    processFetch provider (some X) X = none ∧
    processFetch provider none X =
      some { provider := provider, change_type := "created", field_changes := none,
             old_data := none, new_data := X } ∧
    processFetch provider none X ≠ none ∧
    triggersDispatch (processFetch provider none X) = true := by
  have hchanges : fieldChanges X X = [] := by
    unfold fieldChanges
    have : ((fieldKeys X X).filter (fun k => lookupField X k != lookupField X k)) = [] := by
      apply List.filter_eq_nil_iff.mpr
      intro k _
      simp
    rw [this]
    rfl
  have hdiff : diff X X = none := by
    unfold diff
    rw [hchanges]
    rfl
  refine ⟨hdiff, ?_, rfl, by simp [processFetch], rfl⟩
  show (match diff X X with
        | none => none
        | some cs =>
          some { provider := provider, change_type := "updated", field_changes := some cs,
                 old_data := some X, new_data := X }) = (none : Option ChangeRecord)
  rw [hdiff]

/-- C7: the cache invariant `fetchedAt < expiresAt` holds for every
stored snapshot: a (possibly overwriting) write for any key preserves it
across the whole store, because the written snapshot expires exactly one
positive provider TTL after its fetch time. -/
theorem snapshot_expiry_invariant {α : Type} (st : CacheStore α) (e : String)
    (p : CacheProvider) (x : α) (now : Nat) (h : StoreWf st) :
    StoreWf (cachePut st e p x now) ∧
    cachePut st e p x now (e, p) = some ⟨x, now, now + providerTtl p⟩ := by
  have hpos : 0 < providerTtl p := by cases p <;> decide
  constructor
  · intro k s hk
    unfold cachePut at hk
    by_cases hkey : k = (e, p)
    · rw [if_pos hkey] at hk
      cases hk
      simpa using hpos
    · rw [if_neg hkey] at hk
      exact h k s hk
  · simp [cachePut]

/-- C7 witness: writing a registry snapshot into the empty store yields a
snapshot expiring one day after its fetch time. -/
theorem snapshot_expiry_invariant_witness :
    cachePut (emptyCache (α := String)) "1234567890" CacheProvider.regon "payload" 0
      ("1234567890", CacheProvider.regon) = some ⟨"payload", 0, 86400⟩ :=
  (snapshot_expiry_invariant (emptyCache (α := String)) "1234567890" CacheProvider.regon
    "payload" 0 (fun _ _ hk => Option.noConfusion hk)).2

/-- The worker never touches a task that is not pending. -/
theorem runWorker_of_not_pending (codes : Nat → Nat) (now backoff fuel : Nat)
    (t : DeliveryTask) (h : ¬ t.status = .pending) :
    runWorker codes now backoff fuel t = t := by
  cases fuel <;> simp [runWorker, h]

/-- Invariant of the retry loop under an endpoint that always fails: the
task ends `failed` with exactly `max_retries` recorded attempts, all
unsuccessful. -/
theorem runWorker_allFail (codes : Nat → Nat) (hcodes : ∀ i, is2xx (codes i) = false)
    (now backoff : Nat) :
    ∀ fuel t, t.status = .pending →
      t.attempts.length = t.retry_count →
      t.retry_count < t.max_retries →
      t.max_retries ≤ fuel + t.retry_count →
      (∀ a ∈ t.attempts, a.success = false) →
      ((runWorker codes now backoff fuel t).status = .failed ∧
       (runWorker codes now backoff fuel t).retry_count = t.max_retries ∧
       (runWorker codes now backoff fuel t).attempts.length = t.max_retries ∧
       (runWorker codes now backoff fuel t).max_retries = t.max_retries ∧
       (∀ a ∈ (runWorker codes now backoff fuel t).attempts, a.success = false)) := by
  intro fuel
  induction fuel with
  | zero =>
    intro t _ _ hlt hle _
    omega
  | succ n ih =>
    intro t hp hlen hlt hle hsucc
    have hstep : runWorker codes now backoff (n + 1) t =
        runWorker codes now backoff n (workerStep t (codes t.attempts.length) now backoff) := by
      simp [runWorker, hp]
    have hcode := hcodes t.attempts.length
    have hworker : workerStep t (codes t.attempts.length) now backoff =
        finishAttempt (beginAttempt t) (codes t.attempts.length) now backoff := by
      unfold workerStep
      rw [hp]
    by_cases hterm : t.max_retries ≤ t.retry_count + 1
    · -- this was the last allowed attempt: the task fails terminally
      have hfin : finishAttempt (beginAttempt t) (codes t.attempts.length) now backoff =
          { t with status := .failed, retry_count := t.retry_count + 1,
                   attempts := recordAttempt t (codes t.attempts.length) now } := by
        unfold finishAttempt beginAttempt
        rw [hcode]
        simp [recordAttempt, hterm]
      rw [hstep, hworker, hfin]
      rw [runWorker_of_not_pending _ _ _ _ _ (by simp)]
      have hmax : t.retry_count + 1 = t.max_retries := by omega
      refine ⟨rfl, by simpa using hmax, ?_, rfl, ?_⟩
      · simp [recordAttempt]
        omega
      · intro a ha
        simp [recordAttempt] at ha
        rcases ha with ha | ha
        · exact hsucc a ha
        · rw [ha, hcode]
    · -- more attempts remain: the task is re-queued and the loop continues
      have hfin : finishAttempt (beginAttempt t) (codes t.attempts.length) now backoff =
          { t with status := .pending, retry_count := t.retry_count + 1,
                   next_retry_at := some (now + backoff),
                   attempts := recordAttempt t (codes t.attempts.length) now } := by
        unfold finishAttempt beginAttempt
        rw [hcode]
        simp [recordAttempt, hterm]
      rw [hstep, hworker, hfin]
      have := ih { t with status := .pending, retry_count := t.retry_count + 1,
                          next_retry_at := some (now + backoff),
                          attempts := recordAttempt t (codes t.attempts.length) now }
        rfl (by simp [recordAttempt]; omega) (by simp; omega) (by simp; omega)
        (by intro a ha
            simp [recordAttempt] at ha
            rcases ha with ha | ha
            · exact hsucc a ha
            · rw [ha, hcode])
      simpa using this

/-- C4: under an endpoint that answers non-2xx on every attempt, a
freshly enqueued task reaches the terminal `failed` status after exactly
its configured maximum number of attempts, with exactly that many
recorded delivery attempts — none successful — and the worker never
touches the failed task again. -/
theorem webhook_retry_ceiling (codes : Nat → Nat) (now backoff fuel : Nat)
    (t : DeliveryTask) (hcodes : ∀ i, is2xx (codes i) = false)
    (hstatus : t.status = .pending) (hrc : t.retry_count = 0) (hatt : t.attempts = [])
    (hmax : 0 < t.max_retries) (hfuel : t.max_retries ≤ fuel) :
    (runWorker codes now backoff fuel t).status = .failed ∧
    (runWorker codes now backoff fuel t).attempts.length = t.max_retries ∧
    (runWorker codes now backoff fuel t).retry_count = t.max_retries ∧
    (∀ a ∈ (runWorker codes now backoff fuel t).attempts, a.success = false) ∧
    (∀ extraFuel, runWorker codes now backoff extraFuel (runWorker codes now backoff fuel t) =
      runWorker codes now backoff fuel t) := by
  have h := runWorker_allFail codes hcodes now backoff fuel t hstatus
    (by rw [hatt, hrc]; rfl) (by omega) (by omega) (by rw [hatt]; intro a ha; cases ha)
  refine ⟨h.1, h.2.2.1, h.2.1, h.2.2.2.2, ?_⟩
  intro extraFuel
  apply runWorker_of_not_pending
  rw [h.1]
  simp

/-- C4 witness: with max 3 retries and an endpoint always answering 500,
the fresh task ends `failed` with 3 recorded attempts. -/
theorem webhook_retry_ceiling_witness :
    (runWorker (fun _ => 500) 100 60 3 exTask).status = TaskStatus.failed ∧
    (runWorker (fun _ => 500) 100 60 3 exTask).attempts.length = 3 ∧
    (runWorker (fun _ => 500) 100 60 3 exTask).retry_count = 3 :=
  have h := webhook_retry_ceiling (fun _ => 500) 100 60 3 exTask
    (fun _ => (by decide : is2xx 500 = false)) rfl rfl rfl (by decide) (by decide)
  ⟨h.1, h.2.1, h.2.2.1⟩

/-- C5 counterexample: the status a picked-up task carries while being
processed is `processing` — the schema's vocabulary (`pending`,
`processing`, `completed`, `failed`) — not the claim's `in_flight`, which
is never a stored status value (nor is `delivered`). -/
theorem deliveryStatus_naming_refuted :
    statusName (beginAttempt exTask).status ∉ claimedDeliveryStatuses ∧
    statusName (beginAttempt exTask).status ∈ callbackQueueStatuses ∧
    "in_flight" ∉ callbackQueueStatuses ∧
    "delivered" ∉ callbackQueueStatuses := by
  decide

/-- C5 (amended): every delivery task status is one of exactly `pending`,
`processing`, `completed`, `failed`, and every transition of the worker
follows `pending → processing → (completed | pending | failed)`; no
transition leaves `completed` or `failed`. -/
theorem deliveryTask_transitions (t u : DeliveryTask) (h : Step t u) :
    (statusName t.status ∈ callbackQueueStatuses ∧
     statusName u.status ∈ callbackQueueStatuses) ∧
    ((t.status = .pending ∧ u.status = .processing) ∨
     (t.status = .processing ∧
       (u.status = .completed ∨ u.status = .pending ∨ u.status = .failed))) ∧
    (t.status ≠ .completed ∧ t.status ≠ .failed) := by
  have hall : ∀ st : TaskStatus, statusName st ∈ callbackQueueStatuses := by
    intro st
    cases st <;> decide
  refine ⟨⟨hall _, hall _⟩, ?_, ?_⟩
  · cases h with
    | pick hp =>
      exact Or.inl ⟨hp, rfl⟩
    | finish code now backoff hp =>
      refine Or.inr ⟨hp, ?_⟩
      unfold finishAttempt
      by_cases hc : is2xx code = true
      · simp [hc]
      · by_cases hr : t.max_retries ≤ t.retry_count + 1 <;> simp [hc, hr]
  · cases h with
    | pick hp => rw [hp]; exact ⟨by decide, by decide⟩
    | finish code now backoff hp => rw [hp]; exact ⟨by decide, by decide⟩

/-- C5 witness: picking up the freshly enqueued pending task moves it to
`processing`, a lawful transition from a non-terminal status. -/
theorem deliveryTask_transitions_witness :
    (statusName exTask.status ∈ callbackQueueStatuses ∧
     statusName (beginAttempt exTask).status ∈ callbackQueueStatuses) ∧
    ((exTask.status = .pending ∧ (beginAttempt exTask).status = .processing) ∨
     (exTask.status = .processing ∧
       ((beginAttempt exTask).status = .completed ∨
        (beginAttempt exTask).status = .pending ∨
        (beginAttempt exTask).status = .failed))) ∧
    (exTask.status ≠ .completed ∧ exTask.status ≠ .failed) :=
  deliveryTask_transitions exTask (beginAttempt exTask) (Step.pick exTask rfl)

/-- An element that fails the predicate survives `dropWhile`. -/
theorem mem_dropWhile_of_not {α : Type} (p : α → Bool) {c : α} {l : List α}
    (hc : c ∈ l) (hp : p c = false) : c ∈ l.dropWhile p := by
  induction l with
  | nil => cases hc
  | cons a t ih =>
    rw [List.dropWhile_cons]
    by_cases hpa : p a = true
    · rw [if_pos hpa]
      apply ih
      rcases List.mem_cons.mp hc with h | h
      · subst h
        rw [hp] at hpa
        cases hpa
      · exact h
    · rw [if_neg hpa]
      exact hc

/-- A string containing a non-whitespace character does not trim to the
empty string. -/
theorem jsTrim_ne_of_mem {s : String} {c : Char} (hc : c ∈ s.data)
    (hw : isJsWhitespace c = false) : ¬ jsTrim s = "" := by
  intro h
  have h1 := mem_dropWhile_of_not isJsWhitespace hc hw
  have h2 := List.mem_reverse.mpr h1
  have h3 := mem_dropWhile_of_not isJsWhitespace h2 hw
  have h4 := List.mem_reverse.mpr h3
  have h5 : c ∈ (jsTrim s).data := h4
  have h6 : (jsTrim s).data = ([] : List Char) := by rw [h]
  rw [h6] at h5
  cases h5

/-- Filtering twice with the same predicate filters once. -/
theorem filter_idem {α : Type} (p : α → Bool) (l : List α) :
    (l.filter p).filter p = l.filter p := by
  induction l with
  | nil => rfl
  | cons a t ih =>
    by_cases hpa : p a = true <;> simp [List.filter_cons, hpa, ih]

/-- Normalization is idempotent. -/
theorem normalizeNip_idem (s : String) : normalizeNip (normalizeNip s) = normalizeNip s :=
  congrArg String.mk (filter_idem _ s.data)

/-- The format check is insensitive to prior normalization. -/
theorem isValidNipFormat_norm (s : String) :
    isValidNipFormat (normalizeNip s) = isValidNipFormat s := by
  unfold isValidNipFormat
  rw [normalizeNip_idem]

/-- Unfolding of the format check. -/
theorem isValidNipFormat_iff (s : String) :
    isValidNipFormat s = true ↔
      ((normalizeNip s).data.length = 10 ∧
       ∀ c ∈ (normalizeNip s).data, isDigitChar c = true) := by
  simp [isValidNipFormat, List.all_eq_true]

/-- C3: the lookup path normalizes the input by deleting exactly the
whitespace and dash characters, issues a lookup exactly when the
normalized string is 10 decimal digits, and the entity id it issues is
that normalized string. -/
theorem nip_lookup_spec (s : String) :
    ((normalizeNip s).data = s.data.filter (fun c => !(isJsWhitespace c || c == '-'))) ∧
    ((∃ t, handleSearch s = some t) ↔
      ((normalizeNip s).data.length = 10 ∧
       ∀ c ∈ (normalizeNip s).data, isDigitChar c = true)) ∧
    (∀ t, handleSearch s = some t → t = normalizeNip s) := by
  refine ⟨rfl, ⟨?_, ?_⟩, ?_⟩
  · rintro ⟨t, ht⟩
    unfold handleSearch at ht
    by_cases htrim : jsTrim s = ""
    · rw [if_pos htrim] at ht
      cases ht
    · rw [if_neg htrim] at ht
      by_cases hfmt : isValidNipFormat (normalizeNip s) = true
      · rw [isValidNipFormat_norm] at hfmt
        exact (isValidNipFormat_iff s).mp hfmt
      · simp only [hfmt] at ht
        simp at ht
  · rintro ⟨hlen, hdig⟩
    have hfmt : isValidNipFormat s = true := (isValidNipFormat_iff s).mpr ⟨hlen, hdig⟩
    have hfmt2 : isValidNipFormat (normalizeNip s) = true := by
      rw [isValidNipFormat_norm]
      exact hfmt
    have hne : (normalizeNip s).data ≠ [] := by
      intro hnil
      rw [hnil] at hlen
      cases hlen
    obtain ⟨c, hcmem⟩ := List.exists_mem_of_ne_nil _ hne
    have hcfilter : c ∈ s.data.filter (fun c => !(isJsWhitespace c || c == '-')) := hcmem
    have hcs : c ∈ s.data := (List.mem_filter.mp hcfilter).1
    have hcp : (!(isJsWhitespace c || c == '-')) = true := (List.mem_filter.mp hcfilter).2
    have hw : isJsWhitespace c = false := by
      simp only [Bool.not_eq_true', Bool.or_eq_false_iff] at hcp
      exact hcp.1
    have htrim : ¬ jsTrim s = "" := jsTrim_ne_of_mem hcs hw
    refine ⟨normalizeNip s, ?_⟩
    unfold handleSearch
    rw [if_neg htrim]
    simp only [hfmt2, if_true]
  · intro t ht
    unfold handleSearch at ht
    by_cases htrim : jsTrim s = ""
    · rw [if_pos htrim] at ht
      cases ht
    · rw [if_neg htrim] at ht
      by_cases hfmt : isValidNipFormat (normalizeNip s) = true
      · simp only [hfmt, if_true] at ht
        exact (Option.some_inj.mp ht).symm
      · simp only [hfmt] at ht
        simp at ht

/-- C3 witness: the dashed input normalizes to a 10-digit id and the
lookup is issued with exactly that id. -/
theorem nip_lookup_spec_witness : handleSearch "123-456-78-90" = some "1234567890" := by
  obtain ⟨t, ht⟩ := (nip_lookup_spec "123-456-78-90").2.1.mpr (by decide)
  have h2 : t = normalizeNip "123-456-78-90" := (nip_lookup_spec "123-456-78-90").2.2 t ht
  exact ht.trans (congrArg some (h2.trans (by decide)))

/-- Indexing `[]` always gives the default. -/
theorem digitAt_nil (i : Nat) : digitAt [] i = 0 := by
  cases i <;> rfl

/-- Indexing a cons cell at 0 gives the head. -/
theorem digitAt_zero (a : Nat) (t : List Nat) : digitAt (a :: t) 0 = a := rfl

/-- Indexing a cons cell at `i + 1` indexes the tail at `i`. -/
theorem digitAt_succ (a : Nat) (t : List Nat) (i : Nat) :
    digitAt (a :: t) (i + 1) = digitAt t i := rfl

/-- A within-bounds index yields an element of the list. -/
theorem digitAt_mem : ∀ (l : List Nat) (i : Nat), i < l.length → digitAt l i ∈ l := by
  intro l
  induction l with
  | nil =>
    intro i h
    cases h
  | cons a t ih =>
    intro i h
    cases i with
    | zero => exact List.mem_cons_self a t
    | succ j =>
      rw [digitAt_succ]
      exact List.mem_cons_of_mem a (ih j (by simpa using h))

/-- The loop `sum += digits[i] * weights[i]` over the nine checksum
weights equals the explicit weighted digit sum. -/
theorem zip_weights_sum (l : List Nat) :
    (List.zipWith (fun d w => d * w) l nipWeights).sum =
      6 * digitAt l 0 + 5 * digitAt l 1 + 7 * digitAt l 2 + 2 * digitAt l 3 +
      3 * digitAt l 4 + 4 * digitAt l 5 + 5 * digitAt l 6 + 6 * digitAt l 7 +
      7 * digitAt l 8 := by
  match l with
  | [] => simp [nipWeights, digitAt_nil]
  | [d0] =>
    simp [nipWeights, digitAt_zero, digitAt_succ, digitAt_nil]
    ring
  | [d0, d1] =>
    simp [nipWeights, digitAt_zero, digitAt_succ, digitAt_nil]
    ring
  | [d0, d1, d2] =>
    simp [nipWeights, digitAt_zero, digitAt_succ, digitAt_nil]
    ring
  | [d0, d1, d2, d3] =>
    simp [nipWeights, digitAt_zero, digitAt_succ, digitAt_nil]
    ring
  | [d0, d1, d2, d3, d4] =>
    simp [nipWeights, digitAt_zero, digitAt_succ, digitAt_nil]
    ring
  | [d0, d1, d2, d3, d4, d5] =>
    simp [nipWeights, digitAt_zero, digitAt_succ, digitAt_nil]
    ring
  | [d0, d1, d2, d3, d4, d5, d6] =>
    simp [nipWeights, digitAt_zero, digitAt_succ, digitAt_nil]
    ring
  | [d0, d1, d2, d3, d4, d5, d6, d7] =>
    simp [nipWeights, digitAt_zero, digitAt_succ, digitAt_nil]
    ring
  | d0 :: d1 :: d2 :: d3 :: d4 :: d5 :: d6 :: d7 :: d8 :: rest =>
    simp [nipWeights, digitAt_zero, digitAt_succ, digitAt_nil]
    ring

/-- C10: `isValidNip` accepts exactly the inputs whose normalized form is
10 decimal digits with `(6·d0 + 5·d1 + 7·d2 + 2·d3 + 3·d4 + 4·d5 + 5·d6
+ 6·d7 + 7·d8) mod 11 = d9`; hence validity implies the format check,
and an id whose weighted sum is 10 mod 11 is always rejected. -/
theorem nip_checksum_spec (s : String) :
    (isValidNip s = true ↔
      (isValidNipFormat s = true ∧ nipWeightedSum s % 11 = nipDigitOf s 9)) ∧
    (isValidNip s = true → isValidNipFormat s = true) ∧
    (nipWeightedSum s % 11 = 10 → isValidNip s = false) := by
  by_cases hfmt : isValidNipFormat (normalizeNip s) = true
  · have hfmt2 : isValidNipFormat s = true := by
      rw [← isValidNipFormat_norm]
      exact hfmt
    have hval2 : isValidNip s = (nipWeightedSum s % 11 == nipDigitOf s 9) := by
      unfold isValidNip
      simp only [hfmt, Bool.not_true]
      rw [if_neg (by simp)]
      rw [zip_weights_sum]
      rfl
    have hd9 : nipDigitOf s 9 ≤ 9 := by
      have hlen : (nipDigits (normalizeNip s)).length = 10 := by
        unfold nipDigits
        rw [List.length_map]
        exact ((isValidNipFormat_iff s).mp hfmt2).1
      have hmem : digitAt (nipDigits (normalizeNip s)) 9 ∈ nipDigits (normalizeNip s) :=
        digitAt_mem _ 9 (by rw [hlen]; omega)
      obtain ⟨c, hc, hceq⟩ := List.mem_map.mp hmem
      have hdig := ((isValidNipFormat_iff s).mp hfmt2).2 c hc
      have hle : c.toNat ≤ 57 := by
        have := (Bool.and_eq_true _ _).mp hdig
        simpa using this.2
      have h48 : '0'.toNat = 48 := rfl
      unfold nipDigitOf
      rw [← hceq, h48]
      omega
    refine ⟨?_, ?_, ?_⟩
    · rw [hval2]
      constructor
      · intro h
        exact ⟨hfmt2, beq_iff_eq.mp h⟩
      · intro h
        exact beq_iff_eq.mpr h.2
    · intro _
      exact hfmt2
    · intro h10
      rw [hval2, h10]
      have : ¬ (10 = nipDigitOf s 9) := by omega
      rw [beq_eq_false_iff_ne]
      exact this
  · have hfmt2 : ¬ isValidNipFormat s = true := by
      rw [← isValidNipFormat_norm]
      exact hfmt
    have hval : isValidNip s = false := by
      unfold isValidNip
      simp only [Bool.not_eq_true] at hfmt
      simp [hfmt]
    refine ⟨?_, ?_, ?_⟩
    · rw [hval]
      constructor
      · intro h
        exact (Bool.false_ne_true h).elim
      · intro h
        exact absurd h.1 hfmt2
    · intro h
      rw [hval] at h
      exact (Bool.false_ne_true h).elim
    · intro _
      exact hval

/-- C10 witness: `123-456-32-18` normalizes to ten digits whose weighted
sum is 118, and `118 mod 11 = 8` matches its last digit, so it is
accepted. -/
theorem nip_checksum_spec_witness : isValidNip "123-456-32-18" = true :=
  (nip_checksum_spec "123-456-32-18").1.mpr ⟨by decide, by decide⟩

end CompanyHub
